import Mathlib

/-!
Verification development for the location-content synthesis engine of a
suburb-page marketing site generator.

Strings are modelled as `List Char` (`Str`).  JavaScript numbers are modelled
as exact rationals (`ℚ`) and, where the source performs 32-bit coercions
(`x & x`, `<<`), with explicit wrapping on `ℤ`.  Two idealizations are made and
documented at the definitions concerned:
* transcendental library functions (`Math.atan2` composed with the
  degree conversion, and the haversine distance) are passed as explicit
  function parameters, since their values are irrational; every theorem that
  needs a concrete fact about them (e.g. `atan2(0,0) = 0`, a guarantee of the
  JS specification) takes it as a hypothesis;
* products that exceed 2^53 (the seeded-spintax mixing multiply) are kept
  exact instead of IEEE-rounded; the claims proved here (index bounds,
  determinism, iteration caps) are invariant under that difference.

Braces inside string literals are written with the escapes \x7b and \x7d.
-/

set_option maxHeartbeats 4000000
set_option maxRecDepth 10000

abbrev Str := List Char

def openBrace : Char := '\x7b'

def closeBrace : Char := '\x7d'

def pipeChar : Char := '|'

def undefinedStr : Str := "undefined".data

/-- JS `String.prototype.includes` for a substring. -/
def containsSub (pat text : Str) : Bool :=
  text.tails.any (fun t => pat.isPrefixOf t)

/-- Fuelled worker for global literal replacement.  The fuel argument is a
structural-recursion device only: `replaceAllWith` always supplies
`text.length`, which (each step consumes at least one character) is enough
fuel to finish, so the `0` branch returning the remainder unchanged is never
taken from the public entry point. -/
def replaceAllWithF (pat : Str) (f : ℕ → Str) : ℕ → ℕ → Str → Str
  | 0, _, text => text
  | fuel + 1, k, text =>
    match text with
    | [] => []
    | c :: rest =>
      if pat ≠ [] ∧ pat.isPrefixOf (c :: rest) then
        f k ++ replaceAllWithF pat f fuel (k + 1) ((c :: rest).drop pat.length)
      else
        c :: replaceAllWithF pat f fuel k rest

/-- Global replacement of a literal pattern, the `k`-th occurrence being
replaced by `f k`; mirrors `text.replace(/pat/g, callback)`.  Replacement text
is not rescanned, matching JS semantics. -/
def replaceAllWith (pat : Str) (f : ℕ → Str) (text : Str) : Str :=
  replaceAllWithF pat f text.length 0 text

/-- JS `text.replace(new RegExp(escape(pat), 'g'), repl)` for a literal
pattern and a plain replacement string.  (The `$`-substitution patterns JS
applies inside string replacements are not modelled; no claim settled here
depends on them.) -/
def replaceAllStr (pat repl text : Str) : Str :=
  replaceAllWith pat (fun _ => repl) text

/-- Split a string at the first occurrence of `pat`, returning the text
before and after the occurrence. -/
def splitFirst (pat : Str) : Str → Option (Str × Str)
  | [] => if pat = [] then some ([], []) else none
  | c :: rest =>
    if pat.isPrefixOf (c :: rest) then some ([], (c :: rest).drop pat.length)
    else (splitFirst pat rest).map (fun p => (c :: p.1, p.2))

/-- JS `text.replace(pat, repl)` with a string pattern: first occurrence
only. -/
def replaceFirst (text pat repl : Str) : Str :=
  match splitFirst pat text with
  | some (b, a) => b ++ repl ++ a
  | none => text

/-- JS `String.prototype.split('|')`.  The result always has at least one
element, like in JS. -/
def splitPipe : Str → List Str
  | [] => [[]]
  | c :: rest =>
    let r := splitPipe rest
    if c = pipeChar then [] :: r
    else
      match r with
      | [] => [[c]]
      | h :: t => (c :: h) :: t

/-!  ### LocationSpintax.hashCode (src/unnamed/part_003 lines 175-183)

`hash = ((hash << 5) - hash) + charCode; hash = hash & hash` — `<<` and `&`
coerce through 32-bit signed integers; the intermediate sum stays below 2^53
so the float arithmetic between coercions is exact. -/

def toInt32 (n : ℤ) : ℤ := (n + 2 ^ 31) % 2 ^ 32 - 2 ^ 31

def hashStep (h : ℤ) (c : Char) : ℤ :=
  toInt32 (toInt32 (h * 32) - h + c.toNat)

def hashCode (s : Str) : ℕ :=
  (s.foldl hashStep 0).natAbs

/-!  ### LocationSpintax.processSpintaxWithSeed (part_003 lines 55-81) -/

/-- The regex `/\x7b([^\x7b\x7d]*\|[^\x7b\x7d]*)\x7d/` finds the leftmost
position carrying an innermost spintax group: a `{`, then a maximal run of
non-brace characters containing at least one `|`, then `}`.  Returns the
group's content. -/
def findInner : Str → Option Str
  | [] => none
  | c :: rest =>
    if c = openBrace then
      let run := rest.takeWhile (fun x => decide (x ≠ openBrace ∧ x ≠ closeBrace))
      match rest.drop run.length with
      | d :: _ =>
        if d = closeBrace ∧ pipeChar ∈ run then some run else findInner rest
      | [] => findInner rest
    else findInner rest

/-- Mixing constant 2654435761 of the seeded option selection. -/
def kMix : ℕ := 2654435761

/-- `Math.abs((seed + iterations) * 2654435761) % options.length`; `seed`
(a `hashCode` result) and `iterations` are non-negative, so `Math.abs` is the
identity and the value is computed in ℕ. -/
def spintaxIndex (seed iter optionCount : ℕ) : ℕ :=
  (seed + iter) * kMix % optionCount

/-- One while-loop pass plus the remaining passes, with `fuel` playing the
role of the remaining iteration budget (`maxIterations - iterations`); the
returned number is the final value of `iterations`.  JS `options[index]`
would yield `undefined` out of bounds, which string concatenation renders as
"undefined"; the bounds theorem below shows this branch is unreachable. -/
def processSpintaxLoop (seed : ℕ) : ℕ → ℕ → Str → Str × ℕ
  | 0, iter, text => (text, iter)
  | fuel + 1, iter, text =>
    if openBrace ∈ text ∧ pipeChar ∈ text then
      match findInner text with
      | none => (text, iter + 1)
      | some content =>
        let options := splitPipe content
        let idx := spintaxIndex seed (iter + 1) options.length
        let selected := (options.get? idx).getD undefinedStr
        processSpintaxLoop seed fuel (iter + 1)
          (replaceFirst text (openBrace :: (content ++ [closeBrace])) selected)
    else (text, iter)

def maxIterations : ℕ := 100

def processSpintaxWithSeed (text : Str) (seed : ℕ) : Str :=
  (processSpintaxLoop seed maxIterations 0 text).1

/-- Iteration count of the seeded resolution loop on a given input. -/
def spintaxIterations (text : Str) (seed : ℕ) : ℕ :=
  (processSpintaxLoop seed maxIterations 0 text).2

lemma processSpintaxLoop_iter_le (seed : ℕ) :
    ∀ (fuel iter : ℕ) (text : Str),
      (processSpintaxLoop seed fuel iter text).2 ≤ iter + fuel := by
  intro fuel
  induction fuel with
  | zero => intro iter text; simp [processSpintaxLoop]
  | succ n ih =>
    intro iter text
    rw [processSpintaxLoop]
    by_cases hc : openBrace ∈ text ∧ pipeChar ∈ text
    · simp only [if_pos hc]
      cases hm : findInner text with
      | none => simp
      | some content =>
        simp only
        have := ih (iter + 1)
          (replaceFirst text (openBrace :: (content ++ [closeBrace]))
            ((splitPipe content).get? (spintaxIndex seed (iter + 1) (splitPipe content).length) |>.getD undefinedStr))
        calc _ ≤ iter + 1 + n := this
          _ ≤ iter + (n + 1) := by omega
    · simp only [if_neg hc]
      omega

lemma splitPipe_ne_nil : ∀ (content : Str), splitPipe content ≠ [] := by
  intro content
  induction content with
  | nil => simp [splitPipe]
  | cons c rest ih =>
    rw [splitPipe]
    by_cases hc : c = pipeChar
    · simp [hc]
    · simp only [if_neg hc]
      cases h : splitPipe rest with
      | nil => simp
      | cons a t => simp

lemma splitPipe_length_pos (content : Str) : 0 < (splitPipe content).length :=
  List.length_pos.mpr (splitPipe_ne_nil content)

/-- C8: For every input string — including malformed or unbalanced spintax —
and every integer seed, the seeded resolution loop `processSpintaxWithSeed`
terminates after at most 100 replacement iterations and returns a (possibly
partially resolved) string rather than raising an error. -/
theorem processSpintaxWithSeed_terminates (text : Str) (seed : ℕ) :
    spintaxIterations text seed ≤ maxIterations ∧
      processSpintaxWithSeed text seed = (processSpintaxLoop seed maxIterations 0 text).1 := by
  constructor
  · have := processSpintaxLoop_iter_le seed maxIterations 0 text
    simpa [spintaxIterations] using this
  · rfl

/-- C10: the seeded selection index is always strictly below the option
count produced by splitting a group's content on `|`, so the option lookup
in the loop is in bounds and yields a defined option (never the JS
`undefined`). -/
theorem spintaxIndex_in_bounds (seed iter : ℕ) (content : Str) :
    spintaxIndex seed iter (splitPipe content).length < (splitPipe content).length ∧
      ((splitPipe content).get? (spintaxIndex seed iter (splitPipe content).length)).isSome := by
  have hpos := splitPipe_length_pos content
  have hlt : spintaxIndex seed iter (splitPipe content).length < (splitPipe content).length :=
    Nat.mod_lt _ hpos
  refine ⟨hlt, ?_⟩
  rw [List.get?_eq_get hlt]
  rfl

/-!  ### Data model (src/unnamed/part_007 `Suburb`, `SuburbWithPopulation`) -/

structure Suburb where
  id : ℤ
  name : Str
  postcode : Option Str
  state : Str
  latitude : ℚ
  longitude : ℚ
  distanceKm : ℚ
  direction : Str
deriving DecidableEq

structure SuburbWithPopulation extends Suburb where
  population : Option ℚ
  populationDensity : Option ℚ
  households : Option ℚ
  medianAge : Option ℚ
deriving DecidableEq

/-- `LocationData` of part_003. -/
structure LocationData where
  suburb : Suburb
  nearbySuburbs : Option (List Suburb)
  businessName : Str
  serviceRadius : ℚ

def toLowerStr (s : Str) : Str := s.map Char.toLower

/-!  ### LocationSpintax placeholder passes (part_003 lines 86-153) -/

namespace LocationSpintax

def nearbyPat : Str := "\x7b\x7bnearbySuburbs:".data

def closePat : Str := "\x7d\x7d".data

/-- `parseInt` on a non-empty all-digit match. -/
def parseDigits (ds : Str) : ℕ :=
  ds.foldl (fun acc c => 10 * acc + (c.toNat - 48)) 0

def joinComma (l : List Str) : Str := (l.intersperse ", ".data).flatten

/-- The replacement value of one `\x7b\x7bnearbySuburbs:N\x7d\x7d` occurrence. -/
def nearbyListText (nearby : Option (List Suburb)) (n : ℕ) : Str :=
  match nearby with
  | none => "surrounding areas".data
  | some l =>
    if l.isEmpty then "surrounding areas".data
    else joinComma ((l.take n).map (fun s => s.name))

def digitsAt (text : Str) : Str :=
  (text.drop nearbyPat.length).takeWhile Char.isDigit

def nearbyMatchLen (text : Str) : ℕ :=
  nearbyPat.length + (digitsAt text).length + closePat.length

/-- Fuelled worker for the `\x7b\x7bnearbySuburbs:(\d+)\x7d\x7d` regex pass.
Every step consumes at least one character (a successful match consumes the
whole 18+-character occurrence), so `text.length` fuel always suffices and
the `0` branch is never taken from the public entry point. -/
def replaceNearbyPassF (nearby : Option (List Suburb)) : ℕ → Str → Str
  | 0, text => text
  | fuel + 1, text =>
    if nearbyPat.isPrefixOf text ∧ digitsAt text ≠ [] ∧
        closePat.isPrefixOf ((text.drop nearbyPat.length).drop (digitsAt text).length) then
      nearbyListText nearby (parseDigits (digitsAt text)) ++
        replaceNearbyPassF nearby fuel (text.drop (nearbyMatchLen text))
    else
      match text with
      | [] => []
      | c :: rest => c :: replaceNearbyPassF nearby fuel rest

/-- The global regex pass `text.replace(/\x7b\x7bnearbySuburbs:(\d+)\x7d\x7d/g, cb)`:
scans left to right; at a position where the literal head, one or more
digits and the literal tail all match, emits the callback value and resumes
after the match; otherwise advances one character. -/
def replaceNearbyPass (nearby : Option (List Suburb)) (text : Str) : Str :=
  replaceNearbyPassF nearby text.length text

/-- Truthiness of an optional JS string (`undefined` and `''` are falsy). -/
def truthyStr : Option Str → Bool
  | some s => !s.isEmpty
  | none => false

/-- The replacement value of one `\x7b\x7brandomNearby\x7d\x7d` occurrence;
`k` is the occurrence number (the callback draws a fresh `Math.random` per
occurrence when unseeded, modelled by the oracle `rng`).  The index choice is
the source's ternary `this.seed ? hashCode(...) : Math.random()`: JS
truthiness, so an absent or empty seed takes the random branch. -/
def randomNearbyText (seed : Option Str) (rng : ℕ → ℕ) (nearby : Option (List Suburb))
    (k : ℕ) : Str :=
  match nearby with
  | none => "a nearby area".data
  | some l =>
    if l.isEmpty then "a nearby area".data
    else
      let idx :=
        if truthyStr seed then hashCode (seed.getD [] ++ "nearby".data) % l.length
        else rng k % l.length
      ((l.get? idx).map (fun s => s.name)).getD undefinedStr

def postcodeWithCommaText (postcode : Option Str) : Str :=
  match postcode with
  | some p => if p.isEmpty then [] else ", ".data ++ p
  | none => []

def postcodeSpaceText (postcode : Option Str) : Str :=
  match postcode with
  | some p => if p.isEmpty then [] else " ".data ++ p
  | none => []

/-- `\x7b\x7bdistanceFormatted\x7d\x7d` replacement.  The source's two
non-small branches emit the same text; both are kept.  `numStr` models JS
`Number.prototype.toString`. -/
def distanceFormattedText (numStr : ℚ → Str) (km : ℚ) : Str :=
  if km < 1 then "less than 1km".data
  else if km = (⌊km⌋ : ℚ) then numStr km ++ "km".data
  else numStr km ++ "km".data

def getDirectionText (direction : Str) : Str :=
  if direction = "N".data then "north".data
  else if direction = "NE".data then "northeast".data
  else if direction = "E".data then "east".data
  else if direction = "SE".data then "southeast".data
  else if direction = "S".data then "south".data
  else if direction = "SW".data then "southwest".data
  else if direction = "W".data then "west".data
  else if direction = "NW".data then "northwest".data
  else toLowerStr direction

/-- part_003 lines 86-153: the full placeholder pipeline.  The leading guard
mirrors `if (!text) return ''`. -/
def replacePlaceholders (numStr : ℚ → Str) (seed : Option Str) (rng : ℕ → ℕ)
    (data : LocationData) (text : Str) : Str :=
  if text.isEmpty then []
  else
    let t1 := replaceNearbyPass data.nearbySuburbs text
    let t2 := replaceAllWith "\x7b\x7brandomNearby\x7d\x7d".data
      (randomNearbyText seed rng data.nearbySuburbs) t1
    let t3 := replaceAllStr "\x7b\x7bpostcodeWithComma\x7d\x7d".data
      (postcodeWithCommaText data.suburb.postcode) t2
    let t4 := replaceAllStr "\x7b\x7bpostcodeSpace\x7d\x7d".data
      (postcodeSpaceText data.suburb.postcode) t3
    let t5 := replaceAllStr "\x7b\x7bdistanceFormatted\x7d\x7d".data
      (distanceFormattedText numStr data.suburb.distanceKm) t4
    let reps : List (Str × Str) :=
      [("\x7b\x7bsuburb\x7d\x7d".data, data.suburb.name),
       ("\x7b\x7bpostcode\x7d\x7d".data, (data.suburb.postcode).getD []),
       ("\x7b\x7bstate\x7d\x7d".data, data.suburb.state),
       ("\x7b\x7bdistance\x7d\x7d".data, numStr data.suburb.distanceKm),
       ("\x7b\x7bdirection\x7d\x7d".data, getDirectionText data.suburb.direction),
       ("\x7b\x7bbusinessName\x7d\x7d".data, data.businessName),
       ("\x7b\x7bserviceRadius\x7d\x7d".data, numStr data.serviceRadius)]
    reps.foldl (fun acc kv => replaceAllStr kv.1 kv.2 acc) t5

/-- part_003 lines 26-49.  `spinRandom` models the external `cnc-spintax`
`Spinner.unspinRandom` used only on the unseeded path (its randomness drawn
from the oracle `rng`).  The branch condition is `if (this.seed)` — JS
truthiness — so an absent or empty seed string takes the random Spinner
path; only a non-empty seed takes the deterministic path, which never
consults the oracle. -/
def generateContent (numStr : ℚ → Str) (spinRandom : (ℕ → ℕ) → Str → Str)
    (seed : Option Str) (rng : ℕ → ℕ) (template : Str) (data : LocationData) : Str :=
  let processed := replacePlaceholders numStr seed rng data template
  if truthyStr seed then processSpintaxWithSeed processed (hashCode (seed.getD []))
  else spinRandom rng processed

lemma truthyStr_some_of_ne_nil (s : Str) (hs : s ≠ []) : truthyStr (some s) = true := by
  cases s with
  | nil => exact absurd rfl hs
  | cons c cs => rfl

lemma randomNearbyText_seeded (s : Str) (hs : s ≠ []) (rng₁ rng₂ : ℕ → ℕ)
    (nearby : Option (List Suburb)) :
    randomNearbyText (some s) rng₁ nearby = randomNearbyText (some s) rng₂ nearby := by
  funext k
  cases nearby with
  | none => rfl
  | some l => simp [randomNearbyText, truthyStr_some_of_ne_nil s hs]

def c1SubA : Suburb := ⟨1, "Alpha".data, none, "SA".data, 0, 0, 5, "N".data⟩

def c1SubB : Suburb := ⟨2, "Beta".data, none, "SA".data, 0, 0, 6, "N".data⟩

def c1Data : LocationData :=
  { suburb := c1SubA, nearbySuburbs := some [c1SubA, c1SubB],
    businessName := "B".data, serviceRadius := 50 }

/-- C1 counterexample: the empty seed string is falsy in JS, so
`generateContent` with seed `''` takes the `Math.random` paths — here the
`\x7b\x7brandomNearby\x7d\x7d` index — and two runs whose random draws
differ produce different output ("Alpha" vs "Beta"), even with the external
spinner fixed to the identity. -/
theorem generateContent_counter :
    generateContent (fun _ => []) (fun _ t => t) (some []) (fun _ => 0)
        "\x7b\x7brandomNearby\x7d\x7d".data c1Data ≠
      generateContent (fun _ => []) (fun _ t => t) (some []) (fun _ => 1)
        "\x7b\x7brandomNearby\x7d\x7d".data c1Data := by
  with_unfolding_all decide

/-- C1 (amended): with a non-empty seed string set — the JS-truthy case, in
which the source takes the seeded branch — `generateContent` is a function
of the template, the seed string and the `LocationData` alone: it is
independent of the random oracle, so resolving the same template twice
yields character-for-character identical output.  (With the empty seed
string the check `if (this.seed)` fails and resolution is random, see the
counterexample.) -/
theorem generateContent_deterministic (numStr : ℚ → Str)
    (spinRandom : (ℕ → ℕ) → Str → Str) (s : Str) (hs : s ≠ []) (rng₁ rng₂ : ℕ → ℕ)
    (template : Str) (data : LocationData) :
    generateContent numStr spinRandom (some s) rng₁ template data =
      generateContent numStr spinRandom (some s) rng₂ template data := by
  simp only [generateContent, replacePlaceholders, truthyStr_some_of_ne_nil s hs,
    randomNearbyText_seeded s hs rng₁ rng₂ data.nearbySuburbs, if_true]

def c1WData : LocationData :=
  { suburb := ⟨1, "Burnside".data, some "5066".data, "SA".data, 0, 0, 5, "N".data⟩,
    nearbySuburbs := none, businessName := "B".data, serviceRadius := 50 }

theorem generateContent_deterministic_witness :
    ("burnside-sa-5066".data ≠ ([] : Str)) ∧
      generateContent (fun _ => []) (fun _ t => t) (some "burnside-sa-5066".data)
          (fun _ => 0) "T".data c1WData =
        generateContent (fun _ => []) (fun _ t => t) (some "burnside-sa-5066".data)
          (fun _ => 1) "T".data c1WData :=
  ⟨by decide,
    generateContent_deterministic (fun _ => []) (fun _ t => t) "burnside-sa-5066".data
      (by decide) (fun _ => 0) (fun _ => 1) "T".data c1WData⟩

end LocationSpintax

/-!  ### Geo math

`calculateDirection` appears verbatim in src/src/lib/static-suburbs.ts
lines 96-107 and src/unnamed/part_007 lines 152-167, and with the deltas
pre-scaled to radians (the same `atan2` ratio, hence the same compass code)
in src/src/lib/footer-locations.ts lines 49-53 and part_004 lines 262-271.
`atanDeg` models `Math.atan2(dLng, dLat) * (180 / Math.PI)`, which is
irrational-valued and therefore passed as a parameter; the JS specification
guarantees `Math.atan2(0, 0) = 0`, taken as a hypothesis where needed. -/

/-- Truncation toward zero, as JS number-to-integer conversion uses. -/
def jsTrunc (q : ℚ) : ℤ := if 0 ≤ q then ⌊q⌋ else ⌈q⌉

/-- JS `%` on numbers: remainder with the dividend's sign. -/
def jsMod (a b : ℚ) : ℚ := a - b * (jsTrunc (a / b) : ℚ)

/-- JS `Math.round`: round half toward positive infinity. -/
def jsRound (q : ℚ) : ℤ := ⌊q + 1 / 2⌋

/-- JS `%` on integer-valued numbers (the `% 8` of the direction index). -/
def jsRemInt (a : ℤ) (b : ℕ) : ℤ :=
  if 0 ≤ a then a % (b : ℤ) else -((-a) % (b : ℤ))

def directions8 : List Str :=
  ["N", "NE", "E", "SE", "S", "SW", "W", "NW"].map String.data

/-- static-suburbs.ts lines 96-107.  A negative index (impossible with the
real `atan2` but expressible with an arbitrary `atanDeg`) would read
`directions[idx] = undefined` in JS. -/
def calculateDirection (atanDeg : ℚ → ℚ → ℚ)
    (fromLat fromLng toLat toLng : ℚ) : Str :=
  let dLng := toLng - fromLng
  let dLat := toLat - fromLat
  let angle := atanDeg dLng dLat
  let normalized := jsMod (angle + 360) 360
  let idx := jsRemInt (jsRound (normalized / 45)) 8
  if 0 ≤ idx then (directions8.get? idx.toNat).getD undefinedStr else undefinedStr

/-- C9: with identical `from` and `to` points both deltas are exactly 0, so
the angle is `atan2(0,0) = 0` (hypothesis `h`, a JS guarantee) and the
computation deterministically lands on index 0, i.e. "N" — no NaN or
undefined propagates. -/
theorem calculateDirection_self (atanDeg : ℚ → ℚ → ℚ)
    (h : atanDeg 0 0 = 0) (lat lng : ℚ) :
    calculateDirection atanDeg lat lng lat lng = "N".data := by
  simp only [calculateDirection, sub_self, h]
  with_unfolding_all decide

theorem calculateDirection_self_witness :
    ((fun _ _ => (0 : ℚ)) (0 : ℚ) (0 : ℚ) = 0) ∧
      calculateDirection (fun _ _ => 0) 3 4 3 4 = "N".data :=
  ⟨rfl, calculateDirection_self (fun _ _ => 0) rfl 3 4⟩

/-!  ### StaticFileBackend radius query (src/src/lib/static-suburbs.ts) -/

/-- `Math.round(distance * 10) / 10`. -/
def round1 (q : ℚ) : ℚ := ((jsRound (q * 10) : ℤ) : ℚ) / 10

namespace StaticSuburbs

/-- The per-suburb recomputation step of `getSuburbsWithinRadius` lines
137-146: distance and direction are recomputed from the requested center,
overwriting the stored values.  `dist` models the haversine
`calculateDistance` (transcendental, hence a parameter). -/
def recompute (dist : ℚ → ℚ → ℚ → ℚ → ℚ) (atanDeg : ℚ → ℚ → ℚ)
    (centerLat centerLng : ℚ) (s : Suburb) : Suburb :=
  { s with
    distanceKm := round1 (dist centerLat centerLng s.latitude s.longitude),
    direction := calculateDirection atanDeg centerLat centerLng s.latitude s.longitude }

def distLe (a b : Suburb) : Prop := a.distanceKm ≤ b.distanceKm

instance : DecidableRel distLe :=
  fun a b => inferInstanceAs (Decidable (a.distanceKm ≤ b.distanceKm))

instance : IsTotal Suburb distLe := ⟨fun a b => le_total a.distanceKm b.distanceKm⟩

instance : IsTrans Suburb distLe := ⟨fun _ _ _ => le_trans⟩

/-- static-suburbs.ts lines 128-149: map-recompute, filter by radius, sort
ascending by distance.  JS `Array.prototype.sort` with the numeric
comparator produces a permutation sorted by `distanceKm`, modelled by the
(stable) insertion sort. -/
def getSuburbsWithinRadius (dist : ℚ → ℚ → ℚ → ℚ → ℚ) (atanDeg : ℚ → ℚ → ℚ)
    (data : List Suburb) (centerLat centerLng radiusKm : ℚ) : List Suburb :=
  List.insertionSort distLe
    ((data.map (recompute dist atanDeg centerLat centerLng)).filter
      (fun s => decide (s.distanceKm ≤ radiusKm)))

/-- C2: every suburb returned by the static backend's radius query has its
`distanceKm` recomputed from the requested center (not taken from the stored
value), that recomputed value is at most `radiusKm`, and the returned list
is sorted ascending by it. -/
theorem getSuburbsWithinRadius_sound (dist : ℚ → ℚ → ℚ → ℚ → ℚ)
    (atanDeg : ℚ → ℚ → ℚ) (data : List Suburb) (cLat cLng r : ℚ) (s : Suburb)
    (hs : s ∈ getSuburbsWithinRadius dist atanDeg data cLat cLng r) :
    s.distanceKm ≤ r ∧
      s.distanceKm = round1 (dist cLat cLng s.latitude s.longitude) ∧
      List.Sorted distLe (getSuburbsWithinRadius dist atanDeg data cLat cLng r) := by
  rw [getSuburbsWithinRadius, List.mem_insertionSort] at hs
  obtain ⟨hmap, hle⟩ := List.mem_filter.mp hs
  obtain ⟨o, ho, rfl⟩ := List.mem_map.mp hmap
  refine ⟨of_decide_eq_true hle, by simp [recompute], ?_⟩
  exact List.sorted_insertionSort distLe _

def c2Suburb : Suburb :=
  ⟨1, "Adelaide".data, none, "SA".data, 0, 0, 99, "X".data⟩

def c2Dist : ℚ → ℚ → ℚ → ℚ → ℚ := fun _ _ _ _ => 1

theorem getSuburbsWithinRadius_sound_witness :
    ((⟨1, "Adelaide".data, none, "SA".data, 0, 0, 1, "N".data⟩ : Suburb) ∈
        getSuburbsWithinRadius c2Dist (fun _ _ => 0) [c2Suburb] 0 0 50) ∧
      ((1 : ℚ) ≤ 50 ∧
        (1 : ℚ) = round1 (c2Dist 0 0 0 0) ∧
        List.Sorted distLe (getSuburbsWithinRadius c2Dist (fun _ _ => 0) [c2Suburb] 0 0 50)) :=
  ⟨by with_unfolding_all decide,
    getSuburbsWithinRadius_sound c2Dist (fun _ _ => 0) [c2Suburb] 0 0 50
      ⟨1, "Adelaide".data, none, "SA".data, 0, 0, 1, "N".data⟩
      (by with_unfolding_all decide)⟩

end StaticSuburbs

/-!  ### FooterSelector (src/src/lib/footer-locations.ts)

The final `.map` of `getFooterLocations` wraps each suburb with its slug and
url (`FooterLocationData`); that relabelling is one-to-one and does not
change which suburbs appear, so the model returns the suburb list.  The
center (from `getCenterLocation`), the service radius
(`siteConfig.locationPages?.serviceRadiusKm || 50`) and the manual list
(`footerFeaturedSuburbs`, absent modelled as `[]`) are parameters. -/

namespace Footer

def majorSuburbs : List Str :=
  ["North Adelaide", "Glenelg", "Norwood", "Port Adelaide",
   "Unley", "Prospect", "Burnside", "Mitcham", "Brighton",
   "Henley Beach", "Modbury", "Marion", "Campbelltown"].map String.data

/-- footer-locations.ts lines 65-106.  JS truthiness makes a population or
density of 0 take the missing-data branch. -/
def scoreSuburb (s : SuburbWithPopulation) : ℚ :=
  let popScore : ℚ :=
    match s.population with
    | some p => if p ≠ 0 then min (p / 100) 100 else 25
    | none => 25
  let distScore : ℚ :=
    if 5 ≤ s.distanceKm ∧ s.distanceKm ≤ 15 then 50
    else if s.distanceKm < 5 then 30
    else if s.distanceKm ≤ 25 then 40
    else if s.distanceKm ≤ 35 then 30
    else 20
  let densityScore : ℚ :=
    match s.populationDensity with
    | some d => if d ≠ 0 ∧ 1000 < d then 20 else 0
    | none => 0
  let majorScore : ℚ :=
    if majorSuburbs.any (fun m => containsSub (toLowerStr m) (toLowerStr s.name)) then 30
    else 0
  popScore + distScore + densityScore + majorScore

/-- Descending-score order of `scoredSuburbs.sort((a, b) => b.score - a.score)`. -/
def scoreRel (a b : SuburbWithPopulation × ℚ) : Prop := b.2 ≤ a.2

instance : DecidableRel scoreRel :=
  fun a b => inferInstanceAs (Decidable (b.2 ≤ a.2))

instance : IsTotal (SuburbWithPopulation × ℚ) scoreRel := ⟨fun a b => le_total b.2 a.2⟩

instance : IsTrans (SuburbWithPopulation × ℚ) scoreRel :=
  ⟨fun _ _ _ h h2 => le_trans h2 h⟩

/-- Score each suburb, sort descending by score, and iterate the suburbs in
that order (lines 116-122). -/
def sortedCandidates (subs : List SuburbWithPopulation) : List SuburbWithPopulation :=
  (List.insertionSort scoreRel (subs.map (fun s => (s, scoreSuburb s)))).map
    (fun p => p.1)

inductive Tier
  | close
  | medium
  | far
deriving DecidableEq

/-- Lines 139-146: 0-15 km, 15-30 km, beyond. -/
def tierOf (s : SuburbWithPopulation) : Tier :=
  if s.distanceKm ≤ 15 then Tier.close
  else if s.distanceKm ≤ 30 then Tier.medium
  else Tier.far

def tierCount (sel : List SuburbWithPopulation) (t : Tier) : ℕ :=
  (sel.filter (fun s => decide (tierOf s = t))).length

def dirCount (sel : List SuburbWithPopulation) (d : Str) : ℕ :=
  (sel.filter (fun s => decide (s.direction = d))).length

/-- `Math.ceil(count / 3)` (line 133). -/
def maxPerTier (count : ℕ) : ℕ := (count + 2) / 3

/-- One iteration of the greedy loop, lines 135-161.  The `usedDirections`
set equals the set of directions of `sel` (it is extended exactly when a
suburb is pushed), and the per-tier counters equal `tierCount`, so the state
is just the selected list. -/
def greedyStep (count : ℕ) (sel : List SuburbWithPopulation)
    (s : SuburbWithPopulation) : List SuburbWithPopulation :=
  if count ≤ sel.length then sel
  else if maxPerTier count ≤ tierCount sel (tierOf s) then sel
  else if s.direction ∈ sel.map (fun x => x.direction) ∧ 4 < sel.length ∧
      2 ≤ dirCount sel s.direction then sel
  else sel ++ [s]

/-- One iteration of the backfill loop, lines 163-171.  With structurally
distinct list entries (the situation of every claim settled here, see the C3
counterexample for the degenerate case) `includes` agrees with structural
membership. -/
def backfillStep (count : ℕ) (sel : List SuburbWithPopulation)
    (s : SuburbWithPopulation) : List SuburbWithPopulation :=
  if count ≤ sel.length then sel
  else if s ∈ sel then sel
  else sel ++ [s]

def greedyPhase (subs : List SuburbWithPopulation) (count : ℕ) :
    List SuburbWithPopulation :=
  (sortedCandidates subs).foldl (greedyStep count) []

/-- footer-locations.ts lines 111-174. -/
def smartSelectLocations (subs : List SuburbWithPopulation) (count : ℕ) :
    List SuburbWithPopulation :=
  ((sortedCandidates subs).foldl (backfillStep count) (greedyPhase subs count)).take
    count

/-- The greedy-phase state after the first `k` candidates have been
examined; `k = (sortedCandidates subs).length` gives the full greedy
result. -/
def greedyStateAt (subs : List SuburbWithPopulation) (count k : ℕ) :
    List SuburbWithPopulation :=
  ((sortedCandidates subs).take k).foldl (greedyStep count) []

def pdistLe (a b : SuburbWithPopulation) : Prop := a.distanceKm ≤ b.distanceKm

instance : DecidableRel pdistLe :=
  fun a b => inferInstanceAs (Decidable (a.distanceKm ≤ b.distanceKm))

instance : IsTotal SuburbWithPopulation pdistLe :=
  ⟨fun a b => le_total a.distanceKm b.distanceKm⟩

instance : IsTrans SuburbWithPopulation pdistLe := ⟨fun _ _ _ => le_trans⟩

/-- Recompute distance/direction of a population-carrying suburb from a
center, as `calculateDistanceAndDirection` (footer-locations.ts lines 34-60)
does: inline haversine (the parameter `dist`) and the compass formula (whose
deltas are scaled to radians there — `atan2` ratios are scale-invariant, so
the compass code is `calculateDirection`'s). -/
def calculateDistanceAndDirection (dist : ℚ → ℚ → ℚ → ℚ → ℚ)
    (atanDeg : ℚ → ℚ → ℚ) (s : SuburbWithPopulation) (centerLat centerLng : ℚ) :
    SuburbWithPopulation :=
  { s with
    distanceKm := round1 (dist centerLat centerLng s.latitude s.longitude),
    direction := calculateDirection atanDeg centerLat centerLng s.latitude s.longitude }

/-- static-suburbs.ts lines 200-215: `getSuburbsWithinRadius` followed by
re-attaching the stored population of each returned id; modelled by carrying
the population through the recomputation. -/
def getSuburbsWithPopulation (dist : ℚ → ℚ → ℚ → ℚ → ℚ) (atanDeg : ℚ → ℚ → ℚ)
    (data : List SuburbWithPopulation) (centerLat centerLng radiusKm : ℚ) :
    List SuburbWithPopulation :=
  List.insertionSort pdistLe
    ((data.map (fun s => calculateDistanceAndDirection dist atanDeg s centerLat centerLng)).filter
      (fun s => decide (s.distanceKm ≤ radiusKm)))

/-- static-suburbs.ts lines 227-244: case-insensitive exact name match,
dataset order, unmatched names silently dropped. -/
def getSuburbsByName (data : List SuburbWithPopulation) (names : List Str) :
    List SuburbWithPopulation :=
  data.filter (fun s => decide (toLowerStr s.name ∈ names.map toLowerStr))

/-- The manual entries that survive the radius check (footer-locations.ts
lines 190-199): resolved by name, distance/direction recomputed from the
center, then filtered to the service radius. -/
def validManual (dist : ℚ → ℚ → ℚ → ℚ → ℚ) (atanDeg : ℚ → ℚ → ℚ)
    (data : List SuburbWithPopulation) (manual : List Str)
    (centerLat centerLng radius : ℚ) : List SuburbWithPopulation :=
  ((getSuburbsByName data manual).map
      (fun s => calculateDistanceAndDirection dist atanDeg s centerLat centerLng)).filter
    (fun s => decide (s.distanceKm ≤ radius))

def defaultSuburbNames : List Str :=
  ["Adelaide", "North Adelaide", "Prospect", "Glenelg",
   "Henley Beach", "Port Adelaide", "Modbury Heights",
   "Aberfoyle Park", "Happy Valley", "Parafield Gardens", "Redwood Park"].map
    String.data

def fallbackFive : List SuburbWithPopulation :=
  [⟨⟨1, "North Adelaide".data, some "5006".data, "SA".data, -34.9065, 138.5930, 2.5, "N".data⟩, none, none, none, none⟩,
   ⟨⟨2, "Prospect".data, some "5082".data, "SA".data, -34.8833, 138.5945, 5.1, "N".data⟩, none, none, none, none⟩,
   ⟨⟨3, "Glenelg".data, some "5045".data, "SA".data, -34.9799, 138.5156, 11.2, "SW".data⟩, none, none, none, none⟩,
   ⟨⟨4, "Henley Beach".data, some "5022".data, "SA".data, -34.9166, 138.4931, 11.5, "W".data⟩, none, none, none, none⟩,
   ⟨⟨5, "Port Adelaide".data, some "5015".data, "SA".data, -34.8477, 138.5016, 14.1, "NW".data⟩, none, none, none, none⟩]

/-- footer-locations.ts lines 179-297, minus the `.map` to slug/url records
and the `try/catch` (no modelled operation throws).  The manual branch runs
when `footerFeaturedSuburbs` is non-empty; otherwise smart selection with
its two degraded fallbacks. -/
def getFooterLocations (dist : ℚ → ℚ → ℚ → ℚ → ℚ) (atanDeg : ℚ → ℚ → ℚ)
    (data : List SuburbWithPopulation) (manual : List Str)
    (centerLat centerLng radius : ℚ) : List SuburbWithPopulation :=
  if manual.isEmpty then
    let allSubs := getSuburbsWithPopulation dist atanDeg data centerLat centerLng radius
    if allSubs.isEmpty then
      let defaults := getSuburbsByName data defaultSuburbNames
      if defaults.isEmpty then []
      else
        (defaults.map
          (fun s => calculateDistanceAndDirection dist atanDeg s centerLat centerLng)).take 11
    else
      let sel := smartSelectLocations allSubs 11
      if sel.isEmpty then fallbackFive else sel
  else
    let valid := validManual dist atanDeg data manual centerLat centerLng radius
    let final :=
      if valid.length < 11 then
        valid ++
          smartSelectLocations
            ((getSuburbsWithPopulation dist atanDeg data centerLat centerLng radius).filter
              (fun s => !(valid.any (fun v => decide (v.id = s.id)))))
            (11 - valid.length)
      else valid
    final.take 11

def c3W : SuburbWithPopulation :=
  ⟨⟨1, "Alpha".data, none, "SA".data, 0, 0, 10, "N".data⟩, none, none, none, none⟩

def c3B : SuburbWithPopulation :=
  ⟨⟨1, "Beta".data, none, "SA".data, 0, 0, 10, "N".data⟩, none, none, none, none⟩

/-- C3 counterexample: a candidate list whose two (structurally distinct)
entries share id 1; the greedy phase admits both, so the result of
`smartSelectLocations` with `count = 11` carries a duplicate suburb id. -/
theorem smartSelectLocations_counter :
    ¬ ((smartSelectLocations [c3W, c3B] 11).map (fun s => s.id)).Nodup := by
  with_unfolding_all decide

def c5Sub (i : ℕ) : SuburbWithPopulation :=
  ⟨⟨(i : ℤ), 'A' :: (Nat.repr i).data, none, "SA".data, 0, 0, 10, "N".data⟩,
    none, none, none, none⟩

def c5List : List SuburbWithPopulation := [c5Sub 1, c5Sub 2, c5Sub 3, c5Sub 4]

/-- C5 counterexample: after the fourth greedy admission the selection has 4
members all with direction "N" — a reachable greedy state with at least 4
suburbs selected in which one compass direction occurs more than twice
(the source only enforces the direction constraint once `selected.length > 4`,
i.e. strictly more than 4). -/
theorem greedy_direction_counter :
    4 ≤ (greedyStateAt c5List 11 4).length ∧
      2 < dirCount (greedyStateAt c5List 11 4) "N".data := by
  with_unfolding_all decide

def c4Sub (i : ℕ) : SuburbWithPopulation :=
  ⟨⟨(i : ℤ), 'L' :: (Nat.repr i).data, none, "SA".data, 0, 0, 0, "N".data⟩,
    none, none, none, none⟩

def c4Data : List SuburbWithPopulation := (List.range 12).map (fun i => c4Sub (i + 1))

def c4Manual : List Str := c4Data.map (fun s => s.name)

def c4Dist : ℚ → ℚ → ℚ → ℚ → ℚ := fun _ _ _ _ => 0

/-- C4 counterexample: twelve manual names all resolve within the service
radius, but `getFooterLocations` slices the result to 11 entries, so the
twelfth valid manual suburb does not appear in the final footer result. -/
theorem getFooterLocations_manual_counter :
    c4Sub 12 ∈ validManual c4Dist (fun _ _ => 0) c4Data c4Manual 0 0 50 ∧
      c4Sub 12 ∉ getFooterLocations c4Dist (fun _ _ => 0) c4Data c4Manual 0 0 50 := by
  with_unfolding_all decide

end Footer

namespace Footer

lemma greedyStep_id_or_append (count : ℕ) (sel : List SuburbWithPopulation)
    (s : SuburbWithPopulation) :
    greedyStep count sel s = sel ∨ greedyStep count sel s = sel ++ [s] := by
  unfold greedyStep
  split
  · exact Or.inl rfl
  · split
    · exact Or.inl rfl
    · split
      · exact Or.inl rfl
      · exact Or.inr rfl

lemma backfillStep_id_or_append (count : ℕ) (sel : List SuburbWithPopulation)
    (s : SuburbWithPopulation) :
    backfillStep count sel s = sel ∨ backfillStep count sel s = sel ++ [s] := by
  unfold backfillStep
  split
  · exact Or.inl rfl
  · split
    · exact Or.inl rfl
    · exact Or.inr rfl

lemma backfillStep_eq (count : ℕ) (sel : List SuburbWithPopulation)
    (s : SuburbWithPopulation) :
    backfillStep count sel s = sel ∨
      (s ∉ sel ∧ backfillStep count sel s = sel ++ [s]) := by
  by_cases h1 : count ≤ sel.length
  · exact Or.inl (by simp [backfillStep, h1])
  · by_cases h2 : s ∈ sel
    · exact Or.inl (by simp [backfillStep, h1, h2])
    · exact Or.inr ⟨h2, by simp [backfillStep, h1, h2]⟩

/-- Both loops only ever append fresh elements taken, in order, from the
iterated list: the fold result is the accumulator followed by a sublist of
the input. -/
lemma foldl_eq_append_sublist {α : Type} (g : List α → α → List α)
    (hg : ∀ sel x, g sel x = sel ∨ g sel x = sel ++ [x]) :
    ∀ (xs acc : List α), ∃ t, xs.foldl g acc = acc ++ t ∧ t.Sublist xs := by
  intro xs
  induction xs with
  | nil => intro acc; exact ⟨[], by simp, List.Sublist.refl _⟩
  | cons x xs ih =>
    intro acc
    rcases hg acc x with h | h
    · obtain ⟨t, ht, hs⟩ := ih acc
      refine ⟨t, ?_, hs.cons x⟩
      simp [List.foldl_cons, h, ht]
    · obtain ⟨t, ht, hs⟩ := ih (acc ++ [x])
      refine ⟨x :: t, ?_, hs.cons₂ x⟩
      simp [List.foldl_cons, h, ht]

lemma sortedCandidates_perm (subs : List SuburbWithPopulation) :
    (sortedCandidates subs).Perm subs := by
  unfold sortedCandidates
  have h := List.perm_insertionSort scoreRel (subs.map (fun s => (s, scoreSuburb s)))
  have h2 := h.map (fun p : SuburbWithPopulation × ℚ => p.1)
  have h3 : (subs.map (fun s => (s, scoreSuburb s))).map
      (fun p : SuburbWithPopulation × ℚ => p.1) = subs := by
    rw [List.map_map]
    exact List.map_id subs
  rw [h3] at h2
  exact h2

lemma backfill_nodup (count : ℕ) (L : List SuburbWithPopulation)
    (hL : (L.map (fun s => s.id)).Nodup) :
    ∀ (xs acc : List SuburbWithPopulation), (∀ x ∈ xs, x ∈ L) → (∀ a ∈ acc, a ∈ L) →
      (acc.map (fun s => s.id)).Nodup →
      ((xs.foldl (backfillStep count) acc).map (fun s => s.id)).Nodup ∧
        ∀ a ∈ xs.foldl (backfillStep count) acc, a ∈ L := by
  intro xs
  induction xs with
  | nil => intro acc _ hacc hnd; exact ⟨hnd, hacc⟩
  | cons x xs ih =>
    intro acc hxs hacc hnd
    simp only [List.foldl_cons]
    have hxL : x ∈ L := hxs x (List.mem_cons_self x xs)
    rcases backfillStep_eq count acc x with h | ⟨hnx, h⟩
    · rw [h]
      exact ih acc (fun y hy => hxs y (List.mem_cons_of_mem x hy)) hacc hnd
    · rw [h]
      refine ih (acc ++ [x]) (fun y hy => hxs y (List.mem_cons_of_mem x hy)) ?_ ?_
      · intro a ha
        rcases List.mem_append.mp ha with h2 | h2
        · exact hacc a h2
        · simp only [List.mem_singleton] at h2
          subst h2; exact hxL
      · rw [List.map_append]
        refine List.nodup_append.mpr ⟨hnd, List.nodup_singleton _, ?_⟩
        intro i hi hi2
        simp only [List.map_cons, List.map_nil, List.mem_singleton] at hi2
        obtain ⟨a, haacc, haid⟩ := List.mem_map.mp hi
        subst hi2
        have hax : a = x :=
          List.inj_on_of_nodup_map hL (hacc a haacc) hxL haid
        exact hnx (hax ▸ haacc)

lemma backfill_covers (count : ℕ) :
    ∀ (xs acc : List SuburbWithPopulation),
      count ≤ (xs.foldl (backfillStep count) acc).length ∨
        ∀ x ∈ xs, x ∈ xs.foldl (backfillStep count) acc := by
  intro xs
  induction xs with
  | nil => intro acc; right; simp
  | cons x xs ih =>
    intro acc
    simp only [List.foldl_cons]
    by_cases h1 : count ≤ acc.length
    · left
      obtain ⟨t, ht, _⟩ :=
        foldl_eq_append_sublist (backfillStep count) (backfillStep_id_or_append count)
          xs (backfillStep count acc x)
      rw [ht]
      have hacc : backfillStep count acc x = acc := by simp [backfillStep, h1]
      rw [hacc]
      simp only [List.length_append]
      omega
    · have hx : x ∈ backfillStep count acc x := by
        by_cases h2 : x ∈ acc
        · simpa [backfillStep, h1, h2] using h2
        · simp [backfillStep, h1, h2]
      rcases ih (backfillStep count acc x) with hl | hr
      · exact Or.inl hl
      · right
        intro y hy
        rcases List.mem_cons.mp hy with rfl | hmem
        · obtain ⟨t, ht, _⟩ :=
            foldl_eq_append_sublist (backfillStep count) (backfillStep_id_or_append count)
              xs (backfillStep count acc y)
          rw [ht]
          exact List.mem_append_left t hx
        · exact hr y hmem

/-- C3 (amended): when the candidate suburb ids are pairwise distinct,
`smartSelectLocations(suburbs, 11)` never returns two entries with the same
suburb id, and with at least 11 candidates it returns exactly 11 entries.
(Without the distinctness hypothesis both parts fail, see the
counterexample.) -/
theorem smartSelectLocations_spec (subs : List SuburbWithPopulation)
    (h : (subs.map (fun s => s.id)).Nodup) :
    ((smartSelectLocations subs 11).map (fun s => s.id)).Nodup ∧
      (11 ≤ subs.length → (smartSelectLocations subs 11).length = 11) := by
  have hperm := sortedCandidates_perm subs
  have hLid : ((sortedCandidates subs).map (fun s => s.id)).Nodup :=
    ((hperm.map (fun s => s.id)).nodup_iff).mpr h
  obtain ⟨t, htg, hsub⟩ :=
    foldl_eq_append_sublist (greedyStep 11) (greedyStep_id_or_append 11)
      (sortedCandidates subs) []
  have hgr : greedyPhase subs 11 = t := by simpa [greedyPhase] using htg
  have hgid : ((greedyPhase subs 11).map (fun s => s.id)).Nodup := by
    rw [hgr]
    exact hLid.sublist (hsub.map (fun s => s.id))
  have hgsub : ∀ a ∈ greedyPhase subs 11, a ∈ sortedCandidates subs := by
    rw [hgr]; exact fun a ha => hsub.subset ha
  obtain ⟨hFnd, hFsub⟩ :=
    backfill_nodup 11 (sortedCandidates subs) hLid (sortedCandidates subs)
      (greedyPhase subs 11) (fun x hx => hx) hgsub hgid
  constructor
  · have : (smartSelectLocations subs 11).map (fun s => s.id) =
        (((sortedCandidates subs).foldl (backfillStep 11) (greedyPhase subs 11)).map
          (fun s => s.id)).take 11 := by
      simp [smartSelectLocations, List.map_take]
    rw [this]
    exact hFnd.sublist (List.take_sublist _ _)
  · intro hlen
    have hcov := backfill_covers 11 (sortedCandidates subs) (greedyPhase subs 11)
    have hflen : 11 ≤
        ((sortedCandidates subs).foldl (backfillStep 11) (greedyPhase subs 11)).length := by
      rcases hcov with hl | hr
      · exact hl
      · have hnodup : (sortedCandidates subs).Nodup := hLid.of_map
        have hsubp := hnodup.subperm (fun a ha => hr a ha)
        have := hsubp.length_le
        have hlen2 : (sortedCandidates subs).length = subs.length := hperm.length_eq
        omega
    simp only [smartSelectLocations, List.length_take]
    omega

def c3V : SuburbWithPopulation :=
  ⟨⟨7, "Gamma".data, none, "SA".data, 0, 0, 10, "N".data⟩, none, none, none, none⟩

theorem smartSelectLocations_spec_witness :
    (([c3V].map (fun s => s.id)).Nodup) ∧
      (((smartSelectLocations [c3V] 11).map (fun s => s.id)).Nodup ∧
        (11 ≤ ([c3V] : List SuburbWithPopulation).length →
          (smartSelectLocations [c3V] 11).length = 11)) :=
  ⟨by with_unfolding_all decide, smartSelectLocations_spec [c3V] (by with_unfolding_all decide)⟩

end Footer

namespace Footer

lemma tierCount_append (sel : List SuburbWithPopulation) (s : SuburbWithPopulation)
    (t : Tier) :
    tierCount (sel ++ [s]) t = tierCount sel t + (if tierOf s = t then 1 else 0) := by
  simp only [tierCount, List.filter_append, List.length_append]
  by_cases h : tierOf s = t
  · simp [h]
  · simp [h]

lemma dirCount_append (sel : List SuburbWithPopulation) (s : SuburbWithPopulation)
    (d : Str) :
    dirCount (sel ++ [s]) d = dirCount sel d + (if s.direction = d then 1 else 0) := by
  simp only [dirCount, List.filter_append, List.length_append]
  by_cases h : s.direction = d
  · simp [h]
  · simp [h]

lemma dirCount_eq_zero_of_not_mem (sel : List SuburbWithPopulation) (d : Str)
    (h : d ∉ sel.map (fun x => x.direction)) : dirCount sel d = 0 := by
  simp only [dirCount, List.length_eq_zero, List.filter_eq_nil_iff]
  intro x hx
  simp only [decide_eq_true_eq]
  intro hEq
  exact h (List.mem_map.mpr ⟨x, hx, hEq⟩)

/-- The two constraints maintained by the greedy loop, in the amended form:
each distance tier holds at most `ceil(count/3)` picks, and each compass
direction occurs at most `max 2 (its occurrences among the first five
picks)` — picks made while 5 or fewer suburbs were selected are
unconstrained, later ones cap every direction at two. -/
def GreedyInv (count : ℕ) (sel : List SuburbWithPopulation) : Prop :=
  (∀ t, tierCount sel t ≤ maxPerTier count) ∧
    (∀ d, dirCount sel d ≤ max 2 (dirCount (sel.take 5) d))

lemma greedyInv_nil (count : ℕ) : GreedyInv count [] := by
  constructor
  · intro t; simp [tierCount]
  · intro d; simp [dirCount]

lemma greedyInv_step (count : ℕ) (sel : List SuburbWithPopulation)
    (s : SuburbWithPopulation) (h : GreedyInv count sel) :
    GreedyInv count (greedyStep count sel s) := by
  by_cases h1 : count ≤ sel.length
  · simpa [greedyStep, h1] using h
  by_cases h2 : maxPerTier count ≤ tierCount sel (tierOf s)
  · simpa [greedyStep, h1, h2] using h
  by_cases h3 : s.direction ∈ sel.map (fun x => x.direction) ∧ 4 < sel.length ∧
      2 ≤ dirCount sel s.direction
  · have hkeep : greedyStep count sel s = sel := by
      unfold greedyStep
      rw [if_neg h1, if_neg h2, if_pos h3]
    rw [hkeep]
    exact h
  have hpush : greedyStep count sel s = sel ++ [s] := by
    unfold greedyStep
    rw [if_neg h1, if_neg h2, if_neg h3]
  rw [hpush]
  constructor
  · intro t
    rw [tierCount_append]
    by_cases ht : tierOf s = t
    · rw [ht] at h2
      simp only [ht, if_pos]
      omega
    · simp only [ht, if_neg, not_false_iff]
      have := h.1 t
      omega
  · intro d
    by_cases hlen : sel.length ≤ 4
    · have hall : (sel ++ [s]).take 5 = sel ++ [s] := by
        apply List.take_of_length_le
        simp only [List.length_append, List.length_cons, List.length_nil]
        omega
      rw [hall]
      exact le_max_right _ _
    · have htake : (sel ++ [s]).take 5 = sel.take 5 := by
        apply List.take_append_of_le_length
        omega
      have hsmall : dirCount sel s.direction ≤ 1 := by
        by_cases hA : s.direction ∈ sel.map (fun x => x.direction)
        · have hC : ¬ 2 ≤ dirCount sel s.direction := by
            intro hC
            exact h3 ⟨hA, by omega, hC⟩
          omega
        · have := dirCount_eq_zero_of_not_mem sel s.direction hA
          omega
      rw [dirCount_append, htake]
      by_cases hd : s.direction = d
      · rw [hd] at hsmall
        simp only [hd, if_pos]
        have : dirCount sel d + 1 ≤ 2 := by omega
        exact le_trans this (le_max_left _ _)
      · simp only [hd, if_neg, not_false_iff]
        have := h.2 d
        omega

lemma greedyInv_foldl (count : ℕ) :
    ∀ (xs acc : List SuburbWithPopulation), GreedyInv count acc →
      GreedyInv count (xs.foldl (greedyStep count) acc) := by
  intro xs
  induction xs with
  | nil => intro acc hacc; simpa using hacc
  | cons x xs ih =>
    intro acc hacc
    simp only [List.foldl_cons]
    exact ih (greedyStep count acc x) (greedyInv_step count acc x hacc)

/-- C5 (amended): throughout the greedy phase — i.e. in the state reached
after examining any prefix of the score-sorted candidates — every distance
tier holds at most `ceil(count/3)` picks; and every compass direction `d`
occurs at most `max 2 (occurrences of d among the first five picks)` times.
The original claim's direction bound (`at most twice once 4 or more are
selected`) fails: the source checks `selected.length > 4`, so the first five
picks are unconstrained (see the counterexample). -/
theorem greedy_invariant_holds (subs : List SuburbWithPopulation) (count k : ℕ) :
    (∀ t, tierCount (greedyStateAt subs count k) t ≤ maxPerTier count) ∧
      (∀ d, dirCount (greedyStateAt subs count k) d ≤
        max 2 (dirCount ((greedyStateAt subs count k).take 5) d)) :=
  greedyInv_foldl count ((sortedCandidates subs).take k) [] (greedyInv_nil count)

/-- C4 (amended): every manual-override suburb that resolves within the
configured service radius appears in the final footer result, provided at
most 11 manual entries are valid (the source slices to 11, see the
counterexample for the 12-entry case); moreover the valid manual entries
occupy the leading positions, the scored algorithm only filling the
remaining slots. -/
theorem getFooterLocations_manual (dist : ℚ → ℚ → ℚ → ℚ → ℚ)
    (atanDeg : ℚ → ℚ → ℚ) (data : List SuburbWithPopulation) (manual : List Str)
    (cLat cLng radius : ℚ) (hm : manual ≠ [])
    (hv : (validManual dist atanDeg data manual cLat cLng radius).length ≤ 11) :
    (getFooterLocations dist atanDeg data manual cLat cLng radius).take
        (validManual dist atanDeg data manual cLat cLng radius).length =
      validManual dist atanDeg data manual cLat cLng radius ∧
      ∀ s ∈ validManual dist atanDeg data manual cLat cLng radius,
        s ∈ getFooterLocations dist atanDeg data manual cLat cLng radius := by
  have hne : ¬ (manual.isEmpty = true) := by
    simp only [List.isEmpty_iff]
    exact hm
  set V := validManual dist atanDeg data manual cLat cLng radius with hVdef
  have hres : getFooterLocations dist atanDeg data manual cLat cLng radius =
      (if V.length < 11 then
        V ++
          smartSelectLocations
            ((getSuburbsWithPopulation dist atanDeg data cLat cLng radius).filter
              (fun s => !(V.any (fun v => decide (v.id = s.id)))))
            (11 - V.length)
      else V).take 11 := by
    simp only [getFooterLocations, if_neg hne]
  by_cases hlt : V.length < 11
  · set M := smartSelectLocations
      ((getSuburbsWithPopulation dist atanDeg data cLat cLng radius).filter
        (fun s => !(V.any (fun v => decide (v.id = s.id)))))
      (11 - V.length) with hMdef
    have hres2 : getFooterLocations dist atanDeg data manual cLat cLng radius =
        V ++ M.take (11 - V.length) := by
      rw [hres, if_pos hlt, List.take_append_eq_append_take,
        List.take_of_length_le (by omega)]
    constructor
    · rw [hres2]
      exact List.take_left V (M.take (11 - V.length))
    · intro s hs
      rw [hres2]
      exact List.mem_append_left _ hs
  · have hVlen : V.length = 11 := by omega
    have hres2 : getFooterLocations dist atanDeg data manual cLat cLng radius = V := by
      rw [hres, if_neg hlt]
      exact List.take_of_length_le (by omega)
    constructor
    · rw [hres2]
      exact List.take_of_length_le (le_refl _)
    · intro s hs
      rw [hres2]
      exact hs

def c4WSub : SuburbWithPopulation :=
  ⟨⟨3, "Delta".data, none, "SA".data, 0, 0, 0, "N".data⟩, none, none, none, none⟩

def c4WDist : ℚ → ℚ → ℚ → ℚ → ℚ := fun _ _ _ _ => 1

theorem getFooterLocations_manual_witness :
    (["Delta".data] ≠ ([] : List Str)) ∧
      (validManual c4WDist (fun _ _ => 0) [c4WSub] ["Delta".data] 0 0 50).length ≤ 11 ∧
      ((getFooterLocations c4WDist (fun _ _ => 0) [c4WSub] ["Delta".data] 0 0 50).take
          (validManual c4WDist (fun _ _ => 0) [c4WSub] ["Delta".data] 0 0 50).length =
        validManual c4WDist (fun _ _ => 0) [c4WSub] ["Delta".data] 0 0 50 ∧
        ∀ s ∈ validManual c4WDist (fun _ _ => 0) [c4WSub] ["Delta".data] 0 0 50,
          s ∈ getFooterLocations c4WDist (fun _ _ => 0) [c4WSub] ["Delta".data] 0 0 50) :=
  ⟨by decide, by with_unfolding_all decide,
    getFooterLocations_manual c4WDist (fun _ _ => 0) [c4WSub] ["Delta".data] 0 0 50
      (by decide) (by with_unfolding_all decide)⟩

end Footer

/-!  ### Unified template processor (src/unnamed/part_004)

`TemplateProcessor` holds an object whose string-valued entries drive the
base `\x7b\x7bkey\x7d\x7d` pass; it is modelled as an association list of
string pairs (object-valued entries such as `suburb` are carried separately,
as the location processor reads them through dedicated fields, and their
`\x7b\x7bkey\x7d\x7d` patterns do not occur in the claims' templates after
the location pass). -/

namespace TemplateProc

def lookupKey (d : List (Str × Str)) (k : Str) : Option Str :=
  (d.find? (fun kv => decide (kv.1 = k))).map (fun kv => kv.2)

/-- JS truthiness of a possibly-absent string property. -/
def truthyKey (d : List (Str × Str)) (k : Str) : Bool :=
  match lookupKey d k with
  | some v => !v.isEmpty
  | none => false

def valOf (d : List (Str × Str)) (k : Str) : Str := (lookupKey d k).getD []

/-- Setting an object property: overwrite in place when present (keeping
`Object.entries` order), append otherwise. -/
def setKey (d : List (Str × Str)) (k v : Str) : List (Str × Str) :=
  if d.any (fun kv => decide (kv.1 = k)) then
    d.map (fun kv => if kv.1 = k then (k, v) else kv)
  else d ++ [(k, v)]

/-- part_004 lines 79-97: derive `mainLocation` and `formattedPhone` when
absent, and pin the governing jurisdiction to Queensland/Brisbane. -/
def computeDerivedValues (d : List (Str × Str)) : List (Str × Str) :=
  let d1 :=
    if !truthyKey d "mainLocation".data && truthyKey d "city".data &&
        truthyKey d "state".data && truthyKey d "postcode".data then
      setKey d "mainLocation".data
        (valOf d "city".data ++ ", ".data ++ valOf d "state".data ++ " ".data ++
          valOf d "postcode".data)
    else d
  let d2 :=
    if !truthyKey d1 "formattedPhone".data && truthyKey d1 "phone".data then
      setKey d1 "formattedPhone".data ((valOf d1 "phone".data).filter (fun c => c.isDigit))
    else d1
  let d3 := setKey d2 "governingState".data "Queensland".data
  setKey d3 "governingCity".data "Brisbane".data

/-- part_004 lines 107-119: the base pass replaces `\x7b\x7bkey\x7d\x7d` for
every entry, in object order. -/
def baseProcessString (d : List (Str × Str)) (text : Str) : Str :=
  d.foldl
    (fun acc kv => replaceAllStr ("\x7b\x7b".data ++ kv.1 ++ "\x7d\x7d".data) kv.2 acc)
    text

/-- The suburb as the location processor reads it.  part_004 accesses
`distance_km`, `lat` and `lng`, names the imported `Suburb` type does not
carry (`distanceKm`, `latitude`, `longitude`), so at runtime those reads
yield `undefined`; they are kept optional here. -/
structure P4Suburb where
  name : Str
  postcode : Option Str
  state : Str
  distance_km : Option ℚ
  lat : Option ℚ
  lng : Option ℚ
deriving DecidableEq

structure P4LocationData where
  base : List (Str × Str)
  suburb : Option P4Suburb
  nearbySuburbs : Option (List P4Suburb)
  centralLat : Option ℚ
  centralLng : Option ℚ

/-- JS string coercion of a possibly-undefined replacement value:
`String(undefined) = "undefined"`. -/
def strOrUndef : Option Str → Str
  | some p => p
  | none => undefinedStr

/-- JS truthiness of a possibly-absent number (0 is falsy). -/
def truthyQ : Option ℚ → Bool
  | some q => decide (q ≠ 0)
  | none => false

/-- Fuelled worker mirroring `processed.match(/\x7b\x7bnearbySuburbs:(\d+)\x7d\x7d/)`:
the digit string of the first (leftmost) match. -/
def findNearbyPlF : ℕ → Str → Option Str
  | 0, _ => none
  | fuel + 1, text =>
    if LocationSpintax.nearbyPat.isPrefixOf text ∧
        LocationSpintax.digitsAt text ≠ [] ∧
        LocationSpintax.closePat.isPrefixOf
          ((text.drop LocationSpintax.nearbyPat.length).drop
            (LocationSpintax.digitsAt text).length) then
      some (LocationSpintax.digitsAt text)
    else
      match text with
      | [] => none
      | _ :: rest => findNearbyPlF fuel rest

def findNearbyPl (text : Str) : Option Str := findNearbyPlF text.length text

/-- part_004 lines 207-257: `LocationTemplateProcessor.processString`.
The postcode replacements are unconditional — an absent postcode interpolates
as the string "undefined".  `\x7b\x7bnearbySuburbs:N\x7d\x7d` is replaced
(first occurrence) whenever `nearbySuburbs` is present, an empty array being
truthy in JS, with the comma-join of the first N names — empty for an empty
list.  `rng` supplies `Math.random` draws. -/
def locationProcessString (atanDeg : ℚ → ℚ → ℚ) (rng : ℕ → ℕ)
    (p : P4LocationData) (str : Str) : Str :=
  let s1 :=
    match p.suburb with
    | none => str
    | some sub =>
      let a := replaceAllStr "\x7b\x7bsuburb\x7d\x7d".data sub.name str
      let b := replaceAllStr "\x7b\x7bpostcode\x7d\x7d".data (strOrUndef sub.postcode) a
      let c := replaceAllStr "\x7b\x7bpostcodeSpace\x7d\x7d".data
        (" ".data ++ strOrUndef sub.postcode) b
      let d := replaceAllStr "\x7b\x7bpostcodeWithComma\x7d\x7d".data
        (", ".data ++ strOrUndef sub.postcode) c
      let e := replaceAllStr "\x7b\x7bstate\x7d\x7d".data sub.state d
      let f :=
        if truthyQ sub.distance_km then
          replaceAllStr "\x7b\x7bdistance\x7d\x7d".data
            ((Int.repr (jsRound ((sub.distance_km).getD 0))).data ++ " km".data) e
        else e
      if truthyQ sub.lat ∧ truthyQ sub.lng ∧ truthyQ p.centralLat ∧
          truthyQ p.centralLng then
        replaceAllStr "\x7b\x7bdirection\x7d\x7d".data
          (calculateDirection atanDeg (p.centralLat.getD 0) (p.centralLng.getD 0)
            ((sub.lat).getD 0) ((sub.lng).getD 0)) f
      else f
  let s2 :=
    match findNearbyPl s1, p.nearbySuburbs with
    | some ds, some l =>
      replaceFirst s1 (LocationSpintax.nearbyPat ++ (ds ++ LocationSpintax.closePat))
        (LocationSpintax.joinComma
          ((l.take (LocationSpintax.parseDigits ds)).map (fun s => s.name)))
    | _, _ => s1
  let s3 :=
    if containsSub "\x7b\x7brandomNearby\x7d\x7d".data s2 &&
        (match p.nearbySuburbs with
         | some l => decide (0 < l.length)
         | none => false) then
      match p.nearbySuburbs with
      | some l =>
        replaceAllStr "\x7b\x7brandomNearby\x7d\x7d".data
          (((l.get? (rng 0 % min 5 l.length)).map (fun s => s.name)).getD undefinedStr) s2
      | none => s2
    else s2
  baseProcessString (computeDerivedValues p.base) s3

def c7Suburb : P4Suburb :=
  ⟨"Birkdale".data, none, "QLD".data, none, none, none⟩

def c7Data : P4LocationData := ⟨[], some c7Suburb, none, none, none⟩

def c7SuburbPc : P4Suburb :=
  ⟨"Birkdale".data, some "4157".data, "QLD".data, none, none, none⟩

def c7DataPc : P4LocationData := ⟨[], some c7SuburbPc, none, none, none⟩

def c7LocData : LocationData :=
  { suburb := ⟨1, "Birkdale".data, none, "QLD".data, 0, 0, 5, "N".data⟩,
    nearbySuburbs := none, businessName := "B".data, serviceRadius := 50 }

def c7LocDataPc : LocationData :=
  { suburb := ⟨1, "Birkdale".data, some "4157".data, "QLD".data, 0, 0, 5, "N".data⟩,
    nearbySuburbs := none, businessName := "B".data, serviceRadius := 50 }

/-- C7: evaluation at the failing input.  In the unified
`LocationTemplateProcessor` (part_004) a suburb with no postcode resolves
`\x7b\x7bpostcodeWithComma\x7d\x7d` to ", undefined" and
`\x7b\x7bpostcodeSpace\x7d\x7d` to " undefined" — not the empty string the
spec requires — while the `LocationSpintax` pass (part_003) implements the
claimed conditional behaviour (empty string when absent, ", 4157" / " 4157"
when present). -/
theorem postcode_placeholders_eval :
    locationProcessString (fun _ _ => 0) (fun _ => 0) c7Data
        "\x7b\x7bpostcodeWithComma\x7d\x7d".data = ", undefined".data ∧
      locationProcessString (fun _ _ => 0) (fun _ => 0) c7Data
        "\x7b\x7bpostcodeSpace\x7d\x7d".data = " undefined".data ∧
      LocationSpintax.replacePlaceholders (fun _ => []) none (fun _ => 0) c7LocData
        "\x7b\x7bpostcodeWithComma\x7d\x7d".data = [] ∧
      LocationSpintax.replacePlaceholders (fun _ => []) none (fun _ => 0) c7LocData
        "\x7b\x7bpostcodeSpace\x7d\x7d".data = [] ∧
      LocationSpintax.replacePlaceholders (fun _ => []) none (fun _ => 0) c7LocDataPc
        "\x7b\x7bpostcodeWithComma\x7d\x7d".data = ", 4157".data ∧
      LocationSpintax.replacePlaceholders (fun _ => []) none (fun _ => 0) c7LocDataPc
        "\x7b\x7bpostcodeSpace\x7d\x7d".data = " 4157".data := by
  with_unfolding_all decide

def c6Data : P4LocationData := ⟨[], none, some [], none, none⟩

/-- C6 counterexample: in `LocationTemplateProcessor.processString` (one of
the claim's two cited code sites) an empty — but present — nearby list is
truthy, so `\x7b\x7bnearbySuburbs:3\x7d\x7d` is replaced by the comma-join
of zero names: the empty string, not the generic fallback phrase. -/
theorem locationProcessString_emptyNearby_counter :
    locationProcessString (fun _ _ => 0) (fun _ => 0) c6Data
        "\x7b\x7bnearbySuburbs:3\x7d\x7d".data = [] ∧
      ("surrounding areas".data : Str) ≠ [] := by
  with_unfolding_all decide

end TemplateProc

lemma isPrefixOf_append_self (l t : Str) : l.isPrefixOf (l ++ t) = true := by
  induction l with
  | nil => simp [List.isPrefixOf]
  | cons c cs ih => simpa [List.isPrefixOf] using ih

lemma takeWhile_append_all (p : Char → Bool) (l r : Str) (h : ∀ c ∈ l, p c = true) :
    (l ++ r).takeWhile p = l ++ r.takeWhile p := by
  induction l with
  | nil => simp
  | cons c cs ih =>
    have hc : p c = true := h c (List.mem_cons_self c cs)
    simp only [List.cons_append, List.takeWhile_cons, hc, if_true]
    rw [ih (fun x hx => h x (List.mem_cons_of_mem c hx))]

namespace LocationSpintax

lemma digitsAt_canonical (ds : Str) (hds : ∀ c ∈ ds, c.isDigit = true) :
    digitsAt (nearbyPat ++ (ds ++ closePat)) = ds := by
  unfold digitsAt
  rw [List.drop_left, takeWhile_append_all _ ds closePat hds]
  have h2 : closePat.takeWhile Char.isDigit = [] := by decide
  rw [h2, List.append_nil]

lemma canonical_cond (ds : Str) (hne : ds ≠ []) (hds : ∀ c ∈ ds, c.isDigit = true) :
    nearbyPat.isPrefixOf (nearbyPat ++ (ds ++ closePat)) = true ∧
      digitsAt (nearbyPat ++ (ds ++ closePat)) ≠ [] ∧
      closePat.isPrefixOf
          (((nearbyPat ++ (ds ++ closePat)).drop nearbyPat.length).drop
            (digitsAt (nearbyPat ++ (ds ++ closePat))).length) = true := by
  refine ⟨isPrefixOf_append_self _ _, ?_, ?_⟩
  · rw [digitsAt_canonical ds hds]
    exact hne
  · rw [digitsAt_canonical ds hds, List.drop_left, List.drop_left]
    simpa using isPrefixOf_append_self closePat []

lemma replaceNearbyPassF_nil (nearby : Option (List Suburb)) :
    ∀ fuel, replaceNearbyPassF nearby fuel [] = []
  | 0 => rfl
  | fuel + 1 => by
    simp only [replaceNearbyPassF]
    rw [if_neg]
    intro h
    have := h.1
    simp [nearbyPat, List.isPrefixOf] at this

lemma replaceNearbyPassF_succ (nearby : Option (List Suburb)) (fuel : ℕ) (text : Str) :
    replaceNearbyPassF nearby (fuel + 1) text =
      if nearbyPat.isPrefixOf text ∧ digitsAt text ≠ [] ∧
          closePat.isPrefixOf ((text.drop nearbyPat.length).drop (digitsAt text).length) then
        nearbyListText nearby (parseDigits (digitsAt text)) ++
          replaceNearbyPassF nearby fuel (text.drop (nearbyMatchLen text))
      else
        match text with
        | [] => []
        | c :: rest => c :: replaceNearbyPassF nearby fuel rest := rfl

lemma canonical_length (ds : Str) :
    (nearbyPat ++ (ds ++ closePat)).length = ds.length + 18 := by
  have h16 : nearbyPat.length = 16 := by decide
  have h2 : closePat.length = 2 := by decide
  simp only [List.length_append, h16, h2]
  omega

lemma replaceNearbyPass_canonical (nearby : Option (List Suburb)) (ds : Str)
    (hne : ds ≠ []) (hds : ∀ c ∈ ds, c.isDigit = true) :
    replaceNearbyPass nearby (nearbyPat ++ (ds ++ closePat)) =
      nearbyListText nearby (parseDigits ds) := by
  have hdrop : (nearbyPat ++ (ds ++ closePat)).drop
      (nearbyMatchLen (nearbyPat ++ (ds ++ closePat))) = [] := by
    apply List.drop_eq_nil_of_le
    rw [canonical_length]
    unfold nearbyMatchLen
    rw [digitsAt_canonical ds hds]
    have h16 : nearbyPat.length = 16 := by decide
    have h2 : closePat.length = 2 := by decide
    omega
  unfold replaceNearbyPass
  rw [canonical_length]
  rw [show ds.length + 18 = (ds.length + 17) + 1 from rfl]
  rw [replaceNearbyPassF_succ]
  rw [if_pos (canonical_cond ds hne hds), digitsAt_canonical ds hds, hdrop,
    replaceNearbyPassF_nil, List.append_nil]

end LocationSpintax

namespace TemplateProc

lemma findNearbyPlF_succ (fuel : ℕ) (text : Str) :
    findNearbyPlF (fuel + 1) text =
      if LocationSpintax.nearbyPat.isPrefixOf text ∧
          LocationSpintax.digitsAt text ≠ [] ∧
          LocationSpintax.closePat.isPrefixOf
            ((text.drop LocationSpintax.nearbyPat.length).drop
              (LocationSpintax.digitsAt text).length) then
        some (LocationSpintax.digitsAt text)
      else
        match text with
        | [] => none
        | _ :: rest => findNearbyPlF fuel rest := rfl

lemma findNearbyPl_canonical (ds : Str) (hne : ds ≠ [])
    (hds : ∀ c ∈ ds, c.isDigit = true) :
    findNearbyPl (LocationSpintax.nearbyPat ++ (ds ++ LocationSpintax.closePat)) =
      some ds := by
  unfold findNearbyPl
  rw [LocationSpintax.canonical_length]
  rw [show ds.length + 18 = (ds.length + 17) + 1 from rfl]
  rw [findNearbyPlF_succ]
  rw [if_pos (LocationSpintax.canonical_cond ds hne hds),
    LocationSpintax.digitsAt_canonical ds hds]

lemma baseProcessString_nil (d : List (Str × Str)) : baseProcessString d [] = [] := by
  unfold baseProcessString
  induction d with
  | nil => rfl
  | cons kv rest ih =>
    rw [List.foldl_cons]
    have h0 : replaceAllStr ("\x7b\x7b".data ++ kv.1 ++ "\x7d\x7d".data) kv.2 [] = [] := rfl
    rw [h0]
    exact ih

end TemplateProc

lemma containsSub_nil (c : Char) (cs : Str) : containsSub (c :: cs) [] = false := by
  simp [containsSub, List.isPrefixOf]

lemma splitFirst_self (t : Str) : splitFirst t t = some ([], []) := by
  cases t with
  | nil => rfl
  | cons c rest =>
    rw [splitFirst, if_pos]
    · rw [List.drop_length]
    · simpa using isPrefixOf_append_self (c :: rest) []

lemma replaceFirst_self (t repl : Str) : replaceFirst t t repl = repl := by
  unfold replaceFirst
  rw [splitFirst_self]
  simp

/-- C6 (amended): for the `\x7b\x7bnearbySuburbs:N\x7d\x7d` placeholder
template (any digit string N): in the `LocationSpintax` engine (part_003) an
empty or absent nearby list resolves it to the generic fallback phrase
"surrounding areas" — never the empty string — and a non-empty list to the
comma-joined names of the first N entries; in
`LocationTemplateProcessor.processString` (part_004), however, an empty
(present) nearby list resolves it to the empty string, with no fallback
(the counterexample instantiates this at N = 3). -/
theorem nearbySuburbs_placeholder_spec :
    (∀ (nearby : Option (List Suburb)), nearby = none ∨ nearby = some [] →
      ∀ (ds : Str), ds ≠ [] → (∀ c ∈ ds, c.isDigit = true) →
        LocationSpintax.replaceNearbyPass nearby
            (LocationSpintax.nearbyPat ++ (ds ++ LocationSpintax.closePat)) =
          "surrounding areas".data) ∧
    (∀ (l : List Suburb), l ≠ [] →
      ∀ (ds : Str), ds ≠ [] → (∀ c ∈ ds, c.isDigit = true) →
        LocationSpintax.replaceNearbyPass (some l)
            (LocationSpintax.nearbyPat ++ (ds ++ LocationSpintax.closePat)) =
          LocationSpintax.joinComma
            ((l.take (LocationSpintax.parseDigits ds)).map (fun s => s.name))) ∧
    (∀ (base : List (Str × Str)) (cLat cLng : Option ℚ) (atanDeg : ℚ → ℚ → ℚ)
        (rng : ℕ → ℕ) (ds : Str), ds ≠ [] → (∀ c ∈ ds, c.isDigit = true) →
        TemplateProc.locationProcessString atanDeg rng
            ⟨base, none, some [], cLat, cLng⟩
            (LocationSpintax.nearbyPat ++ (ds ++ LocationSpintax.closePat)) = []) := by
  refine ⟨?_, ?_, ?_⟩
  · intro nearby hn ds hne hds
    rw [LocationSpintax.replaceNearbyPass_canonical nearby ds hne hds]
    rcases hn with rfl | rfl
    · rfl
    · rfl
  · intro l hl ds hne hds
    rw [LocationSpintax.replaceNearbyPass_canonical (some l) ds hne hds]
    simp only [LocationSpintax.nearbyListText]
    rw [if_neg]
    simp only [List.isEmpty_iff]
    exact hl
  · intro base cLat cLng atanDeg rng ds hne hds
    have hT := TemplateProc.findNearbyPl_canonical ds hne hds
    simp only [TemplateProc.locationProcessString, hT, List.take_nil, List.map_nil]
    rw [replaceFirst_self]
    have hjc : LocationSpintax.joinComma [] = [] := rfl
    rw [hjc]
    simp only [containsSub_nil, Bool.false_and, if_false]
    exact TemplateProc.baseProcessString_nil _

def c6WSub : Suburb := ⟨9, "Capalaba".data, none, "QLD".data, 0, 0, 3, "N".data⟩

theorem nearbySuburbs_placeholder_spec_witness :
    (LocationSpintax.replaceNearbyPass none
        (LocationSpintax.nearbyPat ++ ("3".data ++ LocationSpintax.closePat)) =
      "surrounding areas".data) ∧
    (LocationSpintax.replaceNearbyPass (some [c6WSub])
        (LocationSpintax.nearbyPat ++ ("3".data ++ LocationSpintax.closePat)) =
      LocationSpintax.joinComma
        (([c6WSub].take (LocationSpintax.parseDigits "3".data)).map (fun s => s.name))) ∧
    (TemplateProc.locationProcessString (fun _ _ => 0) (fun _ => 0)
        ⟨[], none, some [], none, none⟩
        (LocationSpintax.nearbyPat ++ ("3".data ++ LocationSpintax.closePat)) = []) :=
  ⟨nearbySuburbs_placeholder_spec.1 none (Or.inl rfl) "3".data (by decide) (by decide),
   nearbySuburbs_placeholder_spec.2.1 [c6WSub] (by decide) "3".data (by decide) (by decide),
   nearbySuburbs_placeholder_spec.2.2 [] none none (fun _ _ => 0) (fun _ => 0) "3".data
     (by decide) (by decide)⟩
